import Mathlib

/-!
SqlEmojiStore (store/sql_emoji_store.go)

A shallow embedding of the emoji store: the five store methods `Save`, `Get`,
`GetByName`, `GetAll` and `Delete`, each of which makes a channel of capacity
one, runs its body on a goroutine and returns the channel.

The body of each goroutine is embedded as a function from the world before the
call to a `Run`: how the goroutine ended, the final state of the channel it
was given, and the world afterwards.  The world holds everything the bodies
touch outside their own locals: the database behind the gorp connections, the
package-level `emojiCache`, the metrics interface returned by
`einterfaces.GetMetricsInterface()` and the wall clock read by the cache.

Entities live on a heap and are passed by pointer, as in the source: `Save`
rewrites the entity its argument points to, the cache stores pointers, and a
result carries the pointer, so the entity a cache entry points to is the very
one handed to callers.
-/

namespace SqlEmojiStore

/-! ## Data model -/

/-- The `model.Emoji` record: the columns of table `Emoji` (lines 27-32). -/
structure Emoji where
  Id : String
  CreatorId : String
  Name : String
  CreateAt : Int
  UpdateAt : Int
  DeleteAt : Int
  deriving DecidableEq

/-- A `*model.Emoji`: the address of an entity on the heap of the world. -/
abbrev Ptr := Nat

/-- A Go `error` value that is not nil, identified with the text its `Error()`
method returns.  A possibly-nil `error` is an `Option GoError`. -/
abbrev GoError := String

/-- The call `err.Error()` on a possibly-nil `error`: on the nil interface the
method call is a nil dereference and the goroutine panics. -/
def GoError.Error (err : Option GoError) : Except String String :=
  match err with
  | some msg => .ok msg
  | none => .error "runtime error: invalid memory address or nil pointer dereference"

/-- Modelled from the spec: `model.AppError` and `model.NewLocAppError` live in
the model package, which is not under src/.  An error value records the
arguments of the call that built it (section 7: a storage error carries the
row identifier and the underlying cause); `Id` is the message id, the kind of
the error. -/
structure AppError where
  Where : String
  Id : String
  params : Option (List (String × String))
  DetailedError : String
  deriving DecidableEq

/-- Modelled from the spec: `model.NewLocAppError(where, id, params, details)`,
see `AppError`. -/
def NewLocAppError (where_ : String) (id : String)
    (params : Option (List (String × String))) (details : String) : AppError :=
  { Where := where_, Id := id, params := params, DetailedError := details }

/-- The dynamic values stored in `StoreResult.Data` (an `interface{}`) by this
file: nothing, a `*model.Emoji`, or a `[]*model.Emoji`. -/
inductive Data where
  | nil
  | emoji (p : Ptr)
  | emojis (ps : List Ptr)
  deriving DecidableEq

/-- The `StoreResult` struct; `StoreResult{}` is the zero value. -/
structure StoreResult where
  Data : Data := .nil
  Err : Option AppError := none
  deriving DecidableEq

/-! ## Channels and goroutine outcomes -/

/-- A `StoreChannel`: a buffered channel of `StoreResult`.  Nothing receives
from it in this model, so `buffer` lists every value ever sent, oldest first. -/
structure StoreChannel where
  capacity : Nat
  buffer : List StoreResult
  closed : Bool
  deriving DecidableEq

/-- The call `make(StoreChannel, n)`. -/
def makeStoreChannel (n : Nat) : StoreChannel :=
  { capacity := n, buffer := [], closed := false }

/-- How a goroutine body ended. -/
inductive Status where
  | done
  | panicked (msg : String)
  | blocked
  deriving DecidableEq

/-- The statement `ch <- r`: panics on a closed channel, blocks for ever when
the buffer is full (there is no receiver in the model), else enqueues. -/
def StoreChannel.send (ch : StoreChannel) (r : StoreResult) : Except Status StoreChannel :=
  if ch.closed then .error (.panicked "send on closed channel")
  else if ch.capacity ≤ ch.buffer.length then .error .blocked
  else .ok { ch with buffer := ch.buffer ++ [r] }

/-- The statement `close(ch)`: panics when the channel is already closed. -/
def StoreChannel.close (ch : StoreChannel) : Except Status StoreChannel :=
  if ch.closed then .error (.panicked "close of closed channel")
  else .ok { ch with closed := true }

/-! ## External collaborators -/

/-- The two SELECT statements of the file, by their WHERE clause
(`AND DeleteAt = 0` is part of each), and the unfiltered live listing. -/
inductive Query where
  | emojiById (id : String)
  | emojiByName (name : String)
  | allLive
  deriving DecidableEq

/-- The UPDATE statement of `Delete` (lines 185-192) with its bound values. -/
structure Update where
  DeleteAt : Int
  UpdateAt : Int
  Id : String
  deriving DecidableEq

/-- The `sql.Result` of an `Exec`: `RowsAffected()` returns a count and an
error. -/
structure SqlResult where
  RowsAffected : Int × Option GoError
  deriving DecidableEq

/-- A gorp connection (`GetMaster()` or `GetReplica()`) over database states
`DB`.  Every call may change the database state and returns what the Go call
returns; the behaviour is otherwise arbitrary.  Rows cross the connection by
value: `Insert` is given the entity its argument points to, and the store
allocates a new entity for every row a SELECT returns. -/
structure SqlExecutor (DB : Type) where
  Insert : DB → Emoji → Option GoError × DB
  SelectOne : DB → Query → Except GoError Emoji × DB
  Select : DB → Query → Except GoError (List Emoji) × DB
  Exec : DB → Update → (SqlResult × Option GoError) × DB

/-- The calls made on a connection, as recorded in the world. -/
inductive DbCall where
  | insert (e : Emoji)
  | selectOne (q : Query)
  | select (q : Query)
  | exec (u : Update)
  deriving DecidableEq

/-- The operations of `utils.Cache` used by the file, over cache states `C`.
`Get` reads the clock (expiry) and may change the state (recency, removal of
an expired entry); `AddWithExpiresInSecs` reads the clock to set the expiry.
Cached values are entity pointers: the only insertion into `emojiCache`
(line 112) stores a `*model.Emoji`, which is what line 82 asserts. -/
structure CacheOps (C : Type) where
  Get : C → Nat → String → Option Ptr × C
  AddWithExpiresInSecs : C → Nat → String → Ptr → Nat → C

/-- The calls made on `emojiCache`, as recorded in the world. -/
inductive CacheCall where
  | get (key : String)
  | add (key : String) (value : Ptr) (ttlSecs : Nat)
  deriving DecidableEq

/-- The state of a metrics sink: the labels passed to the two counters the
file increments, most recent first. -/
structure Metrics where
  hits : List String
  misses : List String
  deriving DecidableEq

/-- The call `metrics.IncrementMemCacheHitCounter(cacheName)`. -/
def IncrementMemCacheHitCounter (cacheName : String) (m : Metrics) : Metrics :=
  { m with hits := cacheName :: m.hits }

/-- The call `metrics.IncrementMemCacheMissCounter(cacheName)`. -/
def IncrementMemCacheMissCounter (cacheName : String) (m : Metrics) : Metrics :=
  { m with misses := cacheName :: m.misses }

/-- Everything outside a goroutine body that the body reads or writes.  The
entities are on `heap`; the addresses below `next` are the allocated ones and
`next` is where the next entity is allocated. -/
structure World (DB C : Type) where
  db : DB
  dbLog : List DbCall
  emojiCache : C
  cacheLog : List CacheCall
  metrics : Option Metrics
  clock : Nat
  heap : Ptr → Emoji
  next : Ptr

/-- The code the file calls but does not contain: the two `model.Emoji`
methods used by `Save`, the two connections and the cache implementation.
`PreSave` is given the clock it reads and the entity its receiver points to,
and returns the entity it leaves there. -/
structure Env (DB C : Type) where
  PreSave : Nat → Emoji → Emoji
  IsValid : Emoji → Option AppError
  GetMaster : SqlExecutor DB
  GetReplica : SqlExecutor DB
  cache : CacheOps C

/-- The result of running one goroutine body to its end. -/
structure Run (DB C : Type) where
  status : Status
  storeChannel : StoreChannel
  world : World DB C

/-! ## Constants -/

/-- The constant of line 13. -/
def EMOJI_CACHE_SIZE : Nat := 5000

/-- The constant of line 14, the time-to-live in seconds passed to the cache
at line 112.  (Its source comment reads `60 mins`; 1800 seconds are 30.) -/
def EMOJI_CACHE_SEC : Nat := 1800

/-! ## The store methods -/

variable {DB C : Type}

/-- A write through the pointer `p`. -/
def World.store (w : World DB C) (p : Ptr) (e : Emoji) : World DB C :=
  { w with heap := fun a => if a = p then e else w.heap a }

/-- The allocation of a new entity holding `e`: its address and the world
with it. -/
def World.new (w : World DB C) (e : Emoji) : Ptr × World DB C :=
  (w.next, { w with heap := fun a => if a = w.next then e else w.heap a, next := w.next + 1 })

/-- The allocation of one new entity per row, in order. -/
def World.newAll (w : World DB C) : List Emoji → List Ptr × World DB C
  | [] => ([], w)
  | e :: rest => ((w.new e).1 :: ((w.new e).2.newAll rest).1, ((w.new e).2.newAll rest).2)

/-- The two closing statements of every path: `storeChannel <- result`
followed by `close(storeChannel)`. -/
def sendAndClose (w : World DB C) (storeChannel : StoreChannel) (result : StoreResult) :
    Run DB C :=
  match storeChannel.send result with
  | .error s => { status := s, storeChannel := storeChannel, world := w }
  | .ok ch1 =>
    match ch1.close with
    | .error s => { status := s, storeChannel := ch1, world := w }
    | .ok ch2 => { status := .done, storeChannel := ch2, world := w }

/-- The method `Save` (lines 44-68).  `emoji.PreSave()` rewrites the entity
`emoji` points to, before validation and whatever its outcome. -/
def Save (env : Env DB C) (emoji : Ptr) (w : World DB C) : Run DB C :=
  let storeChannel := makeStoreChannel 1
  let result : StoreResult := {}
  let saved := env.PreSave w.clock (w.heap emoji)
  let w0 := w.store emoji saved
  match env.IsValid saved with
  | some verr => sendAndClose w0 storeChannel { result with Err := some verr }
  | none =>
    let (err, db1) := env.GetMaster.Insert w0.db saved
    let w1 : World DB C := { w0 with db := db1, dbLog := w0.dbLog ++ [.insert saved] }
    match err with
    | some msg =>
      sendAndClose w1 storeChannel
        { result with Err := some (NewLocAppError "SqlEmojiStore.Save"
            "store.sql_emoji.save.app_error" none ("id=" ++ saved.Id ++ ", " ++ msg)) }
    | none => sendAndClose w1 storeChannel { result with Data := .emoji emoji }

/-- The storage path of `Get` (lines 97-117), shared by its miss branch and its
no-cache branch. -/
def GetSelect (env : Env DB C) (id : String) (allowFromCache : Bool)
    (storeChannel : StoreChannel) (result : StoreResult) (w : World DB C) : Run DB C :=
  let (sel, db1) := env.GetReplica.SelectOne w.db (.emojiById id)
  let w1 : World DB C := { w with db := db1, dbLog := w.dbLog ++ [.selectOne (.emojiById id)] }
  match sel with
  | .error msg =>
    sendAndClose w1 storeChannel
      { result with Err := some (NewLocAppError "SqlEmojiStore.Get"
          "store.sql_emoji.get.app_error" none ("id=" ++ id ++ ", " ++ msg)) }
  | .ok row =>
    let emoji := (w1.new row).1
    let w2 := (w1.new row).2
    let result := { result with Data := Data.emoji emoji }
    if allowFromCache then
      let w3 : World DB C :=
        { w2 with
          emojiCache := env.cache.AddWithExpiresInSecs w2.emojiCache w2.clock id emoji
            EMOJI_CACHE_SEC
          cacheLog := w2.cacheLog ++ [.add id emoji EMOJI_CACHE_SEC] }
      sendAndClose w3 storeChannel result
    else sendAndClose w2 storeChannel result

/-- The method `Get` (lines 70-121). -/
def Get (env : Env DB C) (id : String) (allowFromCache : Bool) (w : World DB C) : Run DB C :=
  let storeChannel := makeStoreChannel 1
  let result : StoreResult := {}
  let metrics := w.metrics
  if allowFromCache then
    let (item, c1) := env.cache.Get w.emojiCache w.clock id
    let w1 : World DB C := { w with emojiCache := c1, cacheLog := w.cacheLog ++ [.get id] }
    match item with
    | some cacheItem =>
      let w2 : World DB C :=
        { w1 with metrics := metrics.map (IncrementMemCacheHitCounter "Emoji") }
      sendAndClose w2 storeChannel { result with Data := .emoji cacheItem }
    | none =>
      let w2 : World DB C :=
        { w1 with metrics := metrics.map (IncrementMemCacheMissCounter "Emoji") }
      GetSelect env id allowFromCache storeChannel result w2
  else
    let w1 : World DB C :=
      { w with metrics := metrics.map (IncrementMemCacheMissCounter "Emoji") }
    GetSelect env id allowFromCache storeChannel result w1

/-- The method `GetByName` (lines 123-149). -/
def GetByName (env : Env DB C) (name : String) (w : World DB C) : Run DB C :=
  let storeChannel := makeStoreChannel 1
  let result : StoreResult := {}
  let (sel, db1) := env.GetReplica.SelectOne w.db (.emojiByName name)
  let w1 : World DB C :=
    { w with db := db1, dbLog := w.dbLog ++ [.selectOne (.emojiByName name)] }
  match sel with
  | .error msg =>
    sendAndClose w1 storeChannel
      { result with Err := some (NewLocAppError "SqlEmojiStore.GetByName"
          "store.sql_emoji.get_by_name.app_error" none ("name=" ++ name ++ ", " ++ msg)) }
  | .ok row =>
    sendAndClose (w1.new row).2 storeChannel { result with Data := .emoji (w1.new row).1 }

/-- The method `GetAll` (lines 151-176). -/
def GetAll (env : Env DB C) (w : World DB C) : Run DB C :=
  let storeChannel := makeStoreChannel 1
  let result : StoreResult := {}
  let (sel, db1) := env.GetReplica.Select w.db .allLive
  let w1 : World DB C := { w with db := db1, dbLog := w.dbLog ++ [.select .allLive] }
  match sel with
  | .error msg =>
    sendAndClose w1 storeChannel
      { result with Err := some (NewLocAppError "SqlEmojiStore.Get"
          "store.sql_emoji.get_all.app_error" none msg) }
  | .ok rows =>
    sendAndClose (w1.newAll rows).2 storeChannel { result with Data := .emojis (w1.newAll rows).1 }

/-- The method `Delete` (lines 178-203).  Both error branches build their
detail text with `err.Error()`; on the second branch `err` is nil. -/
def Delete (env : Env DB C) (id : String) (time : Int) (w : World DB C) : Run DB C :=
  let storeChannel := makeStoreChannel 1
  let result : StoreResult := {}
  let u : Update := { DeleteAt := time, UpdateAt := time, Id := id }
  let ((sqlResult, err), db1) := env.GetMaster.Exec w.db u
  let w1 : World DB C := { w with db := db1, dbLog := w.dbLog ++ [.exec u] }
  if err.isSome then
    match GoError.Error err with
    | .error p => { status := .panicked p, storeChannel := storeChannel, world := w1 }
    | .ok msg =>
      sendAndClose w1 storeChannel
        { result with Err := some (NewLocAppError "SqlEmojiStore.Delete"
            "store.sql_emoji.delete.app_error" none ("id=" ++ id ++ ", err=" ++ msg)) }
  else if sqlResult.RowsAffected.1 = 0 then
    match GoError.Error err with
    | .error p => { status := .panicked p, storeChannel := storeChannel, world := w1 }
    | .ok msg =>
      sendAndClose w1 storeChannel
        { result with Err := some (NewLocAppError "SqlEmojiStore.Delete"
            "store.sql_emoji.delete.no_results" none ("id=" ++ id ++ ", err=" ++ msg)) }
  else sendAndClose w1 storeChannel result

/-! ## Sequences of calls -/

/-- One call of a store method. -/
inductive Op where
  | save (emoji : Ptr)
  | get (id : String) (allowFromCache : Bool)
  | getByName (name : String)
  | getAll
  | delete (id : String) (time : Int)
  deriving DecidableEq

/-- Run the goroutine of one call. -/
def Op.run (env : Env DB C) (op : Op) (w : World DB C) : Run DB C :=
  match op with
  | .save emoji => Save env emoji w
  | .get id allowFromCache => Get env id allowFromCache w
  | .getByName name => GetByName env name w
  | .getAll => GetAll env w
  | .delete id time => Delete env id time w

/-- The calls that may touch `emojiCache`: `Get` with `allowFromCache`. -/
def Op.usesCache : Op → Bool
  | .get _ allowFromCache => allowFromCache
  | _ => false

/-- A step of a sequential schedule: the clock advances, or a call is made and
awaited. -/
inductive Step where
  | advance (secs : Nat)
  | call (op : Op)
  deriving DecidableEq

/-- Whether a step is a call that may touch the cache. -/
def Step.usesCache : Step → Bool
  | .advance _ => false
  | .call op => op.usesCache

/-- The world after one step, if there is one.  A call is made and awaited: a
goroutine that panics ends the process, and one that never resolves its
channel is awaited for ever, so in both cases there is no world to go on
from. -/
def Step.run (env : Env DB C) (s : Step) (w : World DB C) : Option (World DB C) :=
  match s with
  | .advance secs => some { w with clock := w.clock + secs }
  | .call op =>
    match (op.run env w).status with
    | .done => some (op.run env w).world
    | .panicked _ => none
    | .blocked => none

/-- The world after a sequence of steps, if every step has one. -/
def runSteps (env : Env DB C) : List Step → World DB C → Option (World DB C)
  | [], w => some w
  | s :: rest, w =>
    match s.run env w with
    | some w1 => runSteps env rest w1
    | none => none

/-- The assumption on the cache made by the staleness properties, at the cache
state `c` in which an insertion is made: a lookup of a key after an insertion
of that key, with no other cache call in between and before the entry expires,
returns the inserted value. -/
def CacheKeepsFresh (ops : CacheOps C) (c : C) : Prop :=
  ∀ (t : Nat) (key : String) (v : Ptr) (ttl t2 : Nat),
    t2 < t + ttl → (ops.Get (ops.AddWithExpiresInSecs c t key v ttl) t2 key).1 = some v

/-- The entity the cache holds for `key`, as a value: what a lookup finds, read
through the pointer. -/
def World.cached (env : Env DB C) (w : World DB C) (key : String) : Option Emoji :=
  (env.cache.Get w.emojiCache w.clock key).1.map w.heap

/-- The goroutine wrote exactly one result and then closed the channel. -/
def ResolvedWith (r : Run DB C) (result : StoreResult) : Prop :=
  r.status = .done ∧ r.storeChannel.buffer = [result] ∧ r.storeChannel.closed = true

instance (r : Run DB C) (result : StoreResult) : Decidable (ResolvedWith r result) := by
  unfold ResolvedWith
  infer_instance

/-! ## The table model of the database -/

/-- Whether a row is selected by a query; every query of the file has
`DeleteAt = 0` in its WHERE clause. -/
def Query.selects (q : Query) (row : Emoji) : Bool :=
  match q with
  | .emojiById id => row.Id == id && row.DeleteAt == 0
  | .emojiByName name => row.Name == name && row.DeleteAt == 0
  | .allLive => row.DeleteAt == 0

/-- Whether a row is matched by the WHERE clause of the UPDATE of `Delete`:
`Id = :Id AND DeleteAt = 0`. -/
def Update.selects (u : Update) (row : Emoji) : Bool :=
  row.Id == u.Id && row.DeleteAt == 0

/-- The SET clause of the UPDATE of `Delete` on one row. -/
def Update.set (u : Update) (row : Emoji) : Emoji :=
  { row with DeleteAt := u.DeleteAt, UpdateAt := u.UpdateAt }

/-- The rows of table `Emoji` after the UPDATE. -/
def Update.apply (u : Update) (table : List Emoji) : List Emoji :=
  table.map (fun row => if u.selects row then u.set row else row)

/-- The primary key declared at line 27 (`SetKeys(false, "Id")`): no two rows
share an `Id`. -/
def PrimaryKey (table : List Emoji) : Prop :=
  (table.map (fun row => row.Id)).Nodup

instance (table : List Emoji) : Decidable (PrimaryKey table) := by
  unfold PrimaryKey
  infer_instance

/-- The constraint declared at line 32 (`SetUniqueTogether("Name", "DeleteAt")`):
no two rows share both `Name` and `DeleteAt`. -/
def UniqueTogether (table : List Emoji) : Prop :=
  (table.map (fun row => (row.Name, row.DeleteAt))).Nodup

instance (table : List Emoji) : Decidable (UniqueTogether table) := by
  unfold UniqueTogether
  infer_instance

/-- A connection to a database that is one table of rows, with the evident
semantics of the statements.  `SelectOne` fails with `sql.ErrNoRows` on no row
and with a gorp error on several.  `Insert` and `Exec` enforce the two
constraints of the table: a statement whose outcome would break the primary
key or the uniqueness of `(Name, DeleteAt)` fails and leaves the table as it
was.  A successful `Exec` reports the number of rows matched. -/
def tableExecutor : SqlExecutor (List Emoji) where
  Insert := fun table e =>
    if table.any (fun row => row.Id == e.Id) then
      (some "duplicate key value violates the primary key", table)
    else if table.any (fun row => row.Name == e.Name && row.DeleteAt == e.DeleteAt) then
      (some "duplicate key value violates unique constraint", table)
    else (none, table ++ [e])
  SelectOne := fun table q =>
    match table.filter q.selects with
    | [] => (.error "sql: no rows in result set", table)
    | [row] => (.ok row, table)
    | _ :: _ :: _ => (.error "gorp: multiple rows returned", table)
  Select := fun table q => (.ok (table.filter q.selects), table)
  Exec := fun table u =>
    if UniqueTogether (u.apply table) then
      (({ RowsAffected := (((table.filter u.selects).length : Nat), none) }, none), u.apply table)
    else
      (({ RowsAffected := (0, none) }, some "duplicate key value violates unique constraint"),
        table)

/-- A connection on which every call fails at the adapter level. -/
def brokenExecutor : SqlExecutor (List Emoji) where
  Insert := fun table _ => (some "dial tcp: connection refused", table)
  SelectOne := fun table _ => (.error "dial tcp: connection refused", table)
  Select := fun table _ => (.error "dial tcp: connection refused", table)
  Exec := fun table _ => (({ RowsAffected := (0, none) }, some "dial tcp: connection refused"), table)

/-! ## A model of the cache -/

/-- An entry of the cache: key, value and absolute expiry in seconds. -/
structure CacheEntry where
  key : String
  value : Ptr
  expireAtSecs : Nat
  deriving DecidableEq

/-- Modelled from the spec: `utils.Cache` (utils/lru.go) is not under src/.
Section 4.3: a fixed-capacity store keyed by identifier with per-entry
absolute expiry and least-recently-used eviction; `items` lists the entries
most recently used first. -/
structure LruCache where
  size : Nat
  items : List CacheEntry
  deriving DecidableEq

/-- Modelled from the spec: `utils.NewLru(size)`, an empty cache. -/
def NewLru (size : Nat) : LruCache :=
  { size := size, items := [] }

/-- Modelled from the spec: `Cache.Get` (section 4.3).  An entry whose expiry
has passed is treated as absent (and dropped); a found entry becomes the most
recently used. -/
def LruCache.Get (c : LruCache) (now : Nat) (key : String) : Option Ptr × LruCache :=
  match c.items.find? (fun ent => ent.key == key) with
  | none => (none, c)
  | some ent =>
    let others := c.items.filter (fun x => !(x.key == key))
    if ent.expireAtSecs < now then (none, { c with items := others })
    else (some ent.value, { c with items := ent :: others })

/-- Modelled from the spec: `Cache.AddWithExpiresInSecs` (section 4.3).
Inserts or overwrites the entry for `key` with expiry `now + ttl`; a new key
inserted at capacity evicts the least recently used entry. -/
def LruCache.AddWithExpiresInSecs (c : LruCache) (now : Nat) (key : String) (value : Ptr)
    (ttlSecs : Nat) : LruCache :=
  let ent : CacheEntry := { key := key, value := value, expireAtSecs := now + ttlSecs }
  if c.items.any (fun x => x.key == key) then
    { c with items := ent :: c.items.filter (fun x => !(x.key == key)) }
  else
    { c with items := (ent :: c.items).take c.size }

/-- The operations of the modelled cache. -/
def lruOps : CacheOps LruCache where
  Get := LruCache.Get
  AddWithExpiresInSecs := LruCache.AddWithExpiresInSecs

/-! ## Concrete worlds -/

/-- Modelled from the spec: `Emoji.PreSave` is in the model package, which is
not under src/.  Section 4.2: populate `Id` if empty, set `CreateAt` and
`UpdateAt` to the current time (in milliseconds). -/
def PreSave (newId : String) (clock : Nat) (e : Emoji) : Emoji :=
  { e with
    Id := if e.Id = "" then newId else e.Id
    CreateAt := (clock : Int) * 1000
    UpdateAt := (clock : Int) * 1000 }

/-- An environment over the table model, with `PreSave` as in the spec and an
`IsValid` that rejects exactly the entities with an empty `Name`. -/
def tableEnv : Env (List Emoji) LruCache where
  PreSave := PreSave "generatedidgeneratedid0001"
  IsValid := fun e =>
    if e.Name = "" then
      some (NewLocAppError "Emoji.IsValid" "model.emoji.name.app_error" none "")
    else none
  GetMaster := tableExecutor
  GetReplica := tableExecutor
  cache := lruOps

/-- The environment `tableEnv` with both connections failing. -/
def brokenEnv : Env (List Emoji) LruCache :=
  { tableEnv with GetMaster := brokenExecutor, GetReplica := brokenExecutor }

/-- A live row. -/
def smile : Emoji :=
  { Id := "e1", CreatorId := "u1", Name := "smile", CreateAt := 100, UpdateAt := 100,
    DeleteAt := 0 }

/-- Another live row. -/
def wink : Emoji :=
  { Id := "e2", CreatorId := "u1", Name := "wink", CreateAt := 200, UpdateAt := 200,
    DeleteAt := 0 }

/-- The zero value of the `Emoji` struct. -/
def zeroEmoji : Emoji :=
  { Id := "", CreatorId := "", Name := "", CreateAt := 0, UpdateAt := 0, DeleteAt := 0 }

/-- A world over the table model with an empty cache of the configured size
and no entity allocated. -/
def tableWorld (table : List Emoji) (metrics : Option Metrics) : World (List Emoji) LruCache :=
  { db := table, dbLog := [], emojiCache := NewLru EMOJI_CACHE_SIZE, cacheLog := [],
    metrics := metrics, clock := 1000, heap := fun _ => zeroEmoji, next := 0 }

/-- The world `w` with `einterfaces.GetMetricsInterface()` returning `ms`. -/
def World.withMetrics (w : World DB C) (ms : Option Metrics) : World DB C :=
  { w with metrics := ms }

/-- An empty metrics sink. -/
def noEvents : Metrics :=
  { hits := [], misses := [] }

/-- A world over the table model in which row `smile` is cached: the world
after `Get "e1" true` on a one-row table with an empty sink.  The entity read
is at address 0, which is the pointer the cache holds for `"e1"`. -/
def warmWorld : World (List Emoji) LruCache :=
  (Get tableEnv "e1" true (tableWorld [smile] (some noEvents))).world

/-- A schedule without cache use: the row `"e1"` is soft-deleted, ten minutes
pass, and every other kind of call is made; the `Save` is of the entity that
`GetAll` allocates at address 1. -/
def staleSchedule : List Step :=
  [.call (.delete "e1" 1500), .advance 600, .call (.get "e1" false), .call .getAll,
    .call (.getByName "wink"), .call (.save 1)]

/-- The world after `Get "e1" true` on a two-row table followed by
`staleSchedule`. -/
def staleWorld : World (List Emoji) LruCache :=
  (runSteps tableEnv staleSchedule
    (Get tableEnv "e1" true (tableWorld [smile, wink] (some noEvents))).world).getD
    (tableWorld [] none)

/-! ## Basic facts -/

/-- On a fresh channel of capacity one the closing statements send the result
and close the channel. -/
theorem sendAndClose_fresh (w : World DB C) (result : StoreResult) :
    sendAndClose w (makeStoreChannel 1) result =
      { status := .done,
        storeChannel := { capacity := 1, buffer := [result], closed := true },
        world := w } := by
  rfl

/-- The closing statements on a fresh channel resolve it with the result. -/
theorem sendAndClose_resolved (w : World DB C) (result : StoreResult) :
    ResolvedWith (sendAndClose w (makeStoreChannel 1) result) result := by
  simp [sendAndClose_fresh, ResolvedWith]

/-- A run that resolved its channel did not panic. -/
theorem ResolvedWith.status_done {r : Run DB C} {result : StoreResult}
    (h : ResolvedWith r result) : r.status = .done :=
  h.1

/-! ## Delete on zero rows -/

/-- C1 (code defect).  When the UPDATE succeeds (`err` is nil) and reports zero
rows affected, `Delete` evaluates `err.Error()` on the nil error while building
the not-found error: the goroutine panics before anything is sent, the channel
stays empty and open, and so no result (in particular no
`store.sql_emoji.delete.no_results` result) is ever delivered. -/
theorem Delete_zero_rows_panics (env : Env DB C) (id : String) (time : Int) (w : World DB C)
    (sqlResult : SqlResult) (db1 : DB)
    (hexec : env.GetMaster.Exec w.db { DeleteAt := time, UpdateAt := time, Id := id } =
      ((sqlResult, none), db1))
    (hrows : sqlResult.RowsAffected.1 = 0) :
    (Delete env id time w).status =
        .panicked "runtime error: invalid memory address or nil pointer dereference" ∧
      (Delete env id time w).storeChannel.buffer = [] ∧
      (Delete env id time w).storeChannel.closed = false ∧
      ∀ result, ¬ ResolvedWith (Delete env id time w) result := by
  have hs : (Delete env id time w).status =
      .panicked "runtime error: invalid memory address or nil pointer dereference" := by
    simp [Delete, hexec, hrows, GoError.Error]
  refine ⟨hs, ?_, ?_, ?_⟩
  · simp [Delete, hexec, hrows, GoError.Error, makeStoreChannel]
  · simp [Delete, hexec, hrows, GoError.Error, makeStoreChannel]
  · intro result h
    rw [h.1] at hs
    exact Status.noConfusion hs

/-- Witness for C1: the second `Delete` of a row that the first one has just
soft-deleted matches zero rows. -/
theorem Delete_zero_rows_panics_witness :
    tableEnv.GetMaster.Exec (Delete tableEnv "e1" 1500 (tableWorld [smile] none)).world.db
        { DeleteAt := 1600, UpdateAt := 1600, Id := "e1" } =
      (({ RowsAffected := (0, none) }, none), [{ smile with DeleteAt := 1500, UpdateAt := 1500 }]) ∧
    ((Delete tableEnv "e1" 1600 (Delete tableEnv "e1" 1500 (tableWorld [smile] none)).world).status =
        .panicked "runtime error: invalid memory address or nil pointer dereference" ∧
      (Delete tableEnv "e1" 1600
        (Delete tableEnv "e1" 1500 (tableWorld [smile] none)).world).storeChannel.buffer = [] ∧
      (Delete tableEnv "e1" 1600
        (Delete tableEnv "e1" 1500 (tableWorld [smile] none)).world).storeChannel.closed = false ∧
      ∀ result, ¬ ResolvedWith (Delete tableEnv "e1" 1600
        (Delete tableEnv "e1" 1500 (tableWorld [smile] none)).world) result) :=
  ⟨by decide,
    Delete_zero_rows_panics tableEnv "e1" 1600
      (Delete tableEnv "e1" 1500 (tableWorld [smile] none)).world
      { RowsAffected := (0, none) } [{ smile with DeleteAt := 1500, UpdateAt := 1500 }]
      (by decide) (by decide)⟩

/-- The closing statements do not change the world. -/
theorem sendAndClose_world (w : World DB C) (ch : StoreChannel) (result : StoreResult) :
    (sendAndClose w ch result).world = w := by
  unfold sendAndClose
  split
  · rfl
  · split <;> rfl

/-! ## Save -/

/-- C2.  If `IsValid` rejects the entity left by `PreSave`, `Save` resolves its
channel with exactly that error and no data, and nothing reaches storage: the
database state is the same and no call was made on a connection.  The cache,
its calls, the sink and the clock are untouched as well; the one effect is
that of `PreSave` itself on the entity the argument points to. -/
theorem Save_validation_short_circuit (env : Env DB C) (emoji : Ptr) (w : World DB C)
    (verr : AppError) (hinvalid : env.IsValid (env.PreSave w.clock (w.heap emoji)) = some verr) :
    ResolvedWith (Save env emoji w) { Data := .nil, Err := some verr } ∧
      (Save env emoji w).world.db = w.db ∧
      (Save env emoji w).world.dbLog = w.dbLog ∧
      (Save env emoji w).world =
        { w with heap := fun a => if a = emoji then env.PreSave w.clock (w.heap emoji)
                                  else w.heap a } := by
  simp [Save, hinvalid, sendAndClose_fresh, ResolvedWith, World.store]

/-- Witness for C2: an entity with an empty `Name`, allocated at address 0. -/
theorem Save_validation_short_circuit_witness :
    tableEnv.IsValid (tableEnv.PreSave ((tableWorld [] none).new { smile with Name := "" }).2.clock
        (((tableWorld [] none).new { smile with Name := "" }).2.heap 0)) =
        some (NewLocAppError "Emoji.IsValid" "model.emoji.name.app_error" none "") ∧
      ResolvedWith (Save tableEnv 0 ((tableWorld [] none).new { smile with Name := "" }).2)
          { Data := .nil,
            Err := some (NewLocAppError "Emoji.IsValid" "model.emoji.name.app_error" none "") } ∧
      (Save tableEnv 0 ((tableWorld [] none).new { smile with Name := "" }).2).world.db = [] ∧
      (Save tableEnv 0 ((tableWorld [] none).new { smile with Name := "" }).2).world.dbLog = [] :=
  ⟨by decide,
    (Save_validation_short_circuit tableEnv 0
      ((tableWorld [] none).new { smile with Name := "" }).2
      (NewLocAppError "Emoji.IsValid" "model.emoji.name.app_error" none "") (by decide)).1,
    by decide, by decide⟩

/-! ## Get -/

/-- C3.  When the lookup of `id` in `emojiCache` finds `v`, `Get id true`
resolves its channel with data `v` and no error; a present metrics sink gets
one hit and no miss; no call is made on a connection and the database is
unchanged; the only cache call is the lookup itself (nothing is inserted);
no entity is written or allocated. -/
theorem Get_cache_hit (env : Env DB C) (id : String) (w : World DB C) (v : Ptr)
    (hfound : (env.cache.Get w.emojiCache w.clock id).1 = some v) :
    ResolvedWith (Get env id true w) { Data := .emoji v, Err := none } ∧
      (Get env id true w).world.metrics = w.metrics.map (IncrementMemCacheHitCounter "Emoji") ∧
      (∀ m, w.metrics = some m → (Get env id true w).world.metrics =
        some { hits := "Emoji" :: m.hits, misses := m.misses }) ∧
      (Get env id true w).world.db = w.db ∧
      (Get env id true w).world.dbLog = w.dbLog ∧
      (Get env id true w).world.cacheLog = w.cacheLog ++ [.get id] ∧
      (Get env id true w).world.emojiCache = (env.cache.Get w.emojiCache w.clock id).2 ∧
      (Get env id true w).world.heap = w.heap ∧
      (Get env id true w).world.next = w.next := by
  have hrun : Get env id true w = sendAndClose
      { w with
        emojiCache := (env.cache.Get w.emojiCache w.clock id).2
        cacheLog := w.cacheLog ++ [.get id]
        metrics := w.metrics.map (IncrementMemCacheHitCounter "Emoji") }
      (makeStoreChannel 1) { Data := .emoji v, Err := none } := by
    simp only [Get, if_true]
    rw [hfound]
  rw [hrun, sendAndClose_fresh]
  refine ⟨by simp [ResolvedWith], rfl, ?_, rfl, rfl, rfl, rfl, rfl, rfl⟩
  intro m hm
  simp [hm, IncrementMemCacheHitCounter]

/-- Witness for C3: a second `Get "e1" true` on a world in which the row is
cached. -/
theorem Get_cache_hit_witness :
    (tableEnv.cache.Get warmWorld.emojiCache warmWorld.clock "e1").1 = some 0 ∧
      ResolvedWith (Get tableEnv "e1" true warmWorld) { Data := .emoji 0, Err := none } ∧
      (Get tableEnv "e1" true warmWorld).world.heap 0 = smile ∧
      (Get tableEnv "e1" true warmWorld).world.metrics =
        some { hits := ["Emoji"], misses := ["Emoji"] } ∧
      (Get tableEnv "e1" true warmWorld).world.dbLog = warmWorld.dbLog :=
  ⟨by decide, (Get_cache_hit tableEnv "e1" warmWorld 0 (by decide)).1, by decide, by decide,
    (Get_cache_hit tableEnv "e1" warmWorld 0 (by decide)).2.2.2.2.1⟩

/-- The run of `Get id true` when the cache lookup finds `v`. -/
theorem Get_hit_run (env : Env DB C) (id : String) (w : World DB C) (v : Ptr)
    (hfound : (env.cache.Get w.emojiCache w.clock id).1 = some v) :
    Get env id true w =
      { status := .done,
        storeChannel :=
          { capacity := 1, buffer := [{ Data := .emoji v, Err := none }], closed := true },
        world :=
          { w with
            emojiCache := (env.cache.Get w.emojiCache w.clock id).2
            cacheLog := w.cacheLog ++ [.get id]
            metrics := w.metrics.map (IncrementMemCacheHitCounter "Emoji") } } := by
  simp only [Get, if_true]
  rw [hfound]
  rfl

/-- The run of the storage path when the SELECT returns a row: the row is
allocated at `w.next`. -/
theorem GetSelect_found_run (env : Env DB C) (id : String) (allowFromCache : Bool)
    (w : World DB C) (e : Emoji)
    (hsel : (env.GetReplica.SelectOne w.db (.emojiById id)).1 = .ok e) :
    GetSelect env id allowFromCache (makeStoreChannel 1) {} w =
      { status := .done,
        storeChannel :=
          { capacity := 1, buffer := [{ Data := .emoji w.next, Err := none }], closed := true },
        world :=
          { w with
            db := (env.GetReplica.SelectOne w.db (.emojiById id)).2
            dbLog := w.dbLog ++ [.selectOne (.emojiById id)]
            heap := fun a => if a = w.next then e else w.heap a
            next := w.next + 1
            emojiCache :=
              if allowFromCache then
                env.cache.AddWithExpiresInSecs w.emojiCache w.clock id w.next EMOJI_CACHE_SEC
              else w.emojiCache
            cacheLog :=
              if allowFromCache then w.cacheLog ++ [.add id w.next EMOJI_CACHE_SEC]
              else w.cacheLog } } := by
  simp only [GetSelect]
  rw [hsel]
  cases allowFromCache <;> rfl

/-- The run of the storage path when the SELECT fails. -/
theorem GetSelect_failed_run (env : Env DB C) (id : String) (allowFromCache : Bool)
    (w : World DB C) (msg : GoError)
    (hsel : (env.GetReplica.SelectOne w.db (.emojiById id)).1 = .error msg) :
    GetSelect env id allowFromCache (makeStoreChannel 1) {} w =
      { status := .done,
        storeChannel :=
          { capacity := 1,
            buffer := [{ Data := .nil,
                         Err := some (NewLocAppError "SqlEmojiStore.Get"
                           "store.sql_emoji.get.app_error" none ("id=" ++ id ++ ", " ++ msg)) }],
            closed := true },
        world :=
          { w with
            db := (env.GetReplica.SelectOne w.db (.emojiById id)).2
            dbLog := w.dbLog ++ [.selectOne (.emojiById id)] } } := by
  simp only [GetSelect]
  rw [hsel]
  rfl

/-- The run of `Get id true` when the cache lookup finds nothing: a miss is
counted and the storage path runs. -/
theorem Get_miss_run (env : Env DB C) (id : String) (w : World DB C)
    (hmiss : (env.cache.Get w.emojiCache w.clock id).1 = none) :
    Get env id true w =
      GetSelect env id true (makeStoreChannel 1) {}
        { w with
          emojiCache := (env.cache.Get w.emojiCache w.clock id).2
          cacheLog := w.cacheLog ++ [.get id]
          metrics := w.metrics.map (IncrementMemCacheMissCounter "Emoji") } := by
  simp only [Get, if_true]
  rw [hmiss]

/-- The run of `Get id false`: a miss is counted and the storage path runs. -/
theorem Get_nocache_run (env : Env DB C) (id : String) (w : World DB C) :
    Get env id false w =
      GetSelect env id false (makeStoreChannel 1) {}
        { w with metrics := w.metrics.map (IncrementMemCacheMissCounter "Emoji") } := by
  rfl

/-- C6.  When `Get id true` misses the cache: if the SELECT returns `e`, the
channel is resolved with no error and with data the new entity (allocated at
`w.next`, holding `e`), and the cache receives exactly one insertion, key
`id`, value that entity, time-to-live `EMOJI_CACHE_SEC` = 1800 seconds; if the
SELECT fails, the channel is resolved with an error and nothing is inserted
into the cache. -/
theorem Get_populate_on_miss (env : Env DB C) (id : String) (w : World DB C)
    (hmiss : (env.cache.Get w.emojiCache w.clock id).1 = none) :
    EMOJI_CACHE_SEC = 1800 ∧
    (∀ e, (env.GetReplica.SelectOne w.db (.emojiById id)).1 = .ok e →
      ResolvedWith (Get env id true w) { Data := .emoji w.next, Err := none } ∧
      (Get env id true w).world.heap w.next = e ∧
      (Get env id true w).world.cacheLog = w.cacheLog ++ [.get id, .add id w.next 1800] ∧
      (Get env id true w).world.emojiCache =
        env.cache.AddWithExpiresInSecs (env.cache.Get w.emojiCache w.clock id).2 w.clock id
          w.next 1800) ∧
    (∀ msg, (env.GetReplica.SelectOne w.db (.emojiById id)).1 = .error msg →
      (∃ err, ResolvedWith (Get env id true w) { Data := .nil, Err := some err }) ∧
      (Get env id true w).world.cacheLog = w.cacheLog ++ [.get id] ∧
      (Get env id true w).world.emojiCache = (env.cache.Get w.emojiCache w.clock id).2) := by
  refine ⟨rfl, ?_, ?_⟩
  · intro e hsel
    have hrun := GetSelect_found_run env id true
      ({ w with
          emojiCache := (env.cache.Get w.emojiCache w.clock id).2
          cacheLog := w.cacheLog ++ [.get id]
          metrics := w.metrics.map (IncrementMemCacheMissCounter "Emoji") } : World DB C) e hsel
    rw [Get_miss_run env id w hmiss, hrun]
    simp [ResolvedWith, EMOJI_CACHE_SEC]
  · intro msg hsel
    have hrun := GetSelect_failed_run env id true
      ({ w with
          emojiCache := (env.cache.Get w.emojiCache w.clock id).2
          cacheLog := w.cacheLog ++ [.get id]
          metrics := w.metrics.map (IncrementMemCacheMissCounter "Emoji") } : World DB C) msg hsel
    rw [Get_miss_run env id w hmiss, hrun]
    simp [ResolvedWith]

/-- Witness for C6: a live row read through an empty cache. -/
theorem Get_populate_on_miss_witness :
    (tableEnv.cache.Get (tableWorld [smile] none).emojiCache (tableWorld [smile] none).clock
        "e1").1 = none ∧
      (Get tableEnv "e1" true (tableWorld [smile] none)).world.heap 0 = smile ∧
      (Get tableEnv "e1" true (tableWorld [smile] none)).world.cacheLog =
        [.get "e1", .add "e1" 0 1800] ∧
      (Get tableEnv "e1" true (tableWorld [smile] none)).world.emojiCache =
        { size := 5000, items := [{ key := "e1", value := 0, expireAtSecs := 2800 }] } :=
  ⟨by decide,
    ((Get_populate_on_miss tableEnv "e1" (tableWorld [smile] none) (by decide)).2.1 smile
      rfl).2.1,
    ((Get_populate_on_miss tableEnv "e1" (tableWorld [smile] none) (by decide)).2.1 smile
      rfl).2.2.1,
    by decide⟩

/-! ## The cache frame -/

/-- Allocating entities leaves the cache and the entities already allocated
alone. -/
theorem World.newAll_frame (rows : List Emoji) (w : World DB C) :
    (w.newAll rows).2.emojiCache = w.emojiCache ∧
      (w.newAll rows).2.cacheLog = w.cacheLog ∧
      w.next ≤ (w.newAll rows).2.next ∧
      ∀ a, a < w.next → (w.newAll rows).2.heap a = w.heap a := by
  induction rows generalizing w with
  | nil => exact ⟨rfl, rfl, Nat.le_refl _, fun _ _ => rfl⟩
  | cons e rest ih =>
    obtain ⟨h1, h2, h3, h4⟩ := ih (w.new e).2
    refine ⟨h1, h2, ?_, ?_⟩
    · have h3b : w.next + 1 ≤ ((w.new e).2.newAll rest).2.next := h3
      exact Nat.le_trans (Nat.le_succ w.next) h3b
    · intro a ha
      have hstep : ((w.new e).2.newAll rest).2.heap a = (w.new e).2.heap a :=
        h4 a (Nat.lt_succ_of_lt ha)
      have hne : a ≠ w.next := Nat.ne_of_lt ha
      simp only [World.newAll]
      rw [hstep]
      simp [World.new, hne]

/-- The storage path of `Get` without `allowFromCache` leaves the cache and
the entities already allocated alone. -/
theorem GetSelect_nocache_frame (env : Env DB C) (id : String) (ch : StoreChannel)
    (result : StoreResult) (w : World DB C) :
    (GetSelect env id false ch result w).world.emojiCache = w.emojiCache ∧
      (GetSelect env id false ch result w).world.cacheLog = w.cacheLog ∧
      w.next ≤ (GetSelect env id false ch result w).world.next ∧
      ∀ a, a < w.next → (GetSelect env id false ch result w).world.heap a = w.heap a := by
  simp only [GetSelect]
  cases (env.GetReplica.SelectOne w.db (.emojiById id)).1 with
  | error msg => simp [sendAndClose_world]
  | ok row =>
    simp only [Bool.false_eq_true, if_false, sendAndClose_world, World.new]
    refine ⟨trivial, trivial, Nat.le_succ _, ?_⟩
    intro a ha
    have hne : a ≠ w.next := Nat.ne_of_lt ha
    simp [hne]

/-- The call `Save` leaves the cache alone and writes no entity but the one
its argument points to. -/
theorem Save_frame (env : Env DB C) (emoji : Ptr) (w : World DB C) :
    (Save env emoji w).world.emojiCache = w.emojiCache ∧
      (Save env emoji w).world.cacheLog = w.cacheLog ∧
      (Save env emoji w).world.next = w.next ∧
      ∀ a, a ≠ emoji → (Save env emoji w).world.heap a = w.heap a := by
  simp only [Save]
  cases env.IsValid (env.PreSave w.clock (w.heap emoji)) with
  | some verr =>
    simp only [sendAndClose_world, World.store]
    exact ⟨trivial, trivial, trivial, fun a ha => by simp [ha]⟩
  | none =>
    cases (env.GetMaster.Insert (w.store emoji (env.PreSave w.clock (w.heap emoji))).db
        (env.PreSave w.clock (w.heap emoji))).1 <;>
      · simp only [sendAndClose_world, World.store]
        exact ⟨trivial, trivial, trivial, fun a ha => by simp [ha]⟩

/-- The call `Get id false` leaves the cache and the entities already
allocated alone. -/
theorem Get_nocache_frame (env : Env DB C) (id : String) (w : World DB C) :
    (Get env id false w).world.emojiCache = w.emojiCache ∧
      (Get env id false w).world.cacheLog = w.cacheLog ∧
      w.next ≤ (Get env id false w).world.next ∧
      ∀ a, a < w.next → (Get env id false w).world.heap a = w.heap a := by
  rw [Get_nocache_run]
  exact GetSelect_nocache_frame env id _ _ _

/-- The call `GetByName` leaves the cache and the entities already allocated
alone. -/
theorem GetByName_frame (env : Env DB C) (name : String) (w : World DB C) :
    (GetByName env name w).world.emojiCache = w.emojiCache ∧
      (GetByName env name w).world.cacheLog = w.cacheLog ∧
      w.next ≤ (GetByName env name w).world.next ∧
      ∀ a, a < w.next → (GetByName env name w).world.heap a = w.heap a := by
  simp only [GetByName]
  cases (env.GetReplica.SelectOne w.db (.emojiByName name)).1 with
  | error msg => simp [sendAndClose_world]
  | ok row =>
    simp only [sendAndClose_world, World.new]
    refine ⟨trivial, trivial, Nat.le_succ _, ?_⟩
    intro a ha
    have hne : a ≠ w.next := Nat.ne_of_lt ha
    simp [hne]

/-- The call `GetAll` leaves the cache and the entities already allocated
alone. -/
theorem GetAll_frame (env : Env DB C) (w : World DB C) :
    (GetAll env w).world.emojiCache = w.emojiCache ∧
      (GetAll env w).world.cacheLog = w.cacheLog ∧
      w.next ≤ (GetAll env w).world.next ∧
      ∀ a, a < w.next → (GetAll env w).world.heap a = w.heap a := by
  simp only [GetAll]
  cases (env.GetReplica.Select w.db .allLive).1 with
  | error msg => simp [sendAndClose_world]
  | ok rows =>
    simp only [sendAndClose_world]
    exact World.newAll_frame rows _

/-- The call `Delete` leaves the cache and every entity alone, on every path
(the panicking one included). -/
theorem Delete_frame (env : Env DB C) (id : String) (time : Int) (w : World DB C) :
    (Delete env id time w).world.emojiCache = w.emojiCache ∧
      (Delete env id time w).world.cacheLog = w.cacheLog ∧
      (Delete env id time w).world.next = w.next ∧
      (Delete env id time w).world.heap = w.heap := by
  simp only [Delete]
  cases (env.GetMaster.Exec w.db { DeleteAt := time, UpdateAt := time, Id := id }).1.2 with
  | some msg => simp [GoError.Error, sendAndClose_world]
  | none =>
    by_cases hrows :
      (env.GetMaster.Exec w.db { DeleteAt := time, UpdateAt := time, Id := id }).1.1.RowsAffected.1 = 0
    · simp [GoError.Error, hrows]
    · simp [hrows, sendAndClose_world]

/-- Counterexample to C8 as stated: `Save` given the pointer the cache holds
for `"e1"` makes no cache call and leaves the entries as they were, yet the
cached entity is changed by it: `PreSave` rewrites `CreateAt` and `UpdateAt`
in place (and the row is not even inserted). -/
theorem Save_rewrites_cached_entity :
    (tableEnv.cache.Get warmWorld.emojiCache warmWorld.clock "e1").1 = some 0 ∧
      warmWorld.heap 0 = smile ∧
      (Save tableEnv 0 warmWorld).world.emojiCache = warmWorld.emojiCache ∧
      (Save tableEnv 0 warmWorld).world.cacheLog = warmWorld.cacheLog ∧
      (Save tableEnv 0 warmWorld).world.db = [smile] ∧
      (Save tableEnv 0 warmWorld).world.heap 0 =
        { smile with CreateAt := 1000000, UpdateAt := 1000000 } ∧
      warmWorld.cached tableEnv "e1" = some smile ∧
      (Save tableEnv 0 warmWorld).world.cached tableEnv "e1" =
        some { smile with CreateAt := 1000000, UpdateAt := 1000000 } ∧
      (Save tableEnv 0 warmWorld).world.cached tableEnv "e1" ≠
        warmWorld.cached tableEnv "e1" := by
  decide

/-- C8 (amended).  `Save`, `GetByName`, `GetAll`, `Delete` and `Get` without
`allowFromCache` make no call on `emojiCache` (no lookup, insertion, eviction
or invalidation) and leave its entries as they were, whatever the input and
the outcome.  The entities the entries point to are left as they were too:
`GetByName`, `GetAll` and `Get` write no entity allocated before the call,
`Delete` writes none at all, and `Save` writes one only, the entity its
argument points to. -/
theorem emojiCache_frame (env : Env DB C) (w : World DB C) :
    (∀ emoji, (Save env emoji w).world.emojiCache = w.emojiCache ∧
      (Save env emoji w).world.cacheLog = w.cacheLog ∧
      (Save env emoji w).world.next = w.next ∧
      ∀ a, a ≠ emoji → (Save env emoji w).world.heap a = w.heap a) ∧
    (∀ name, (GetByName env name w).world.emojiCache = w.emojiCache ∧
      (GetByName env name w).world.cacheLog = w.cacheLog ∧
      w.next ≤ (GetByName env name w).world.next ∧
      ∀ a, a < w.next → (GetByName env name w).world.heap a = w.heap a) ∧
    ((GetAll env w).world.emojiCache = w.emojiCache ∧
      (GetAll env w).world.cacheLog = w.cacheLog ∧
      w.next ≤ (GetAll env w).world.next ∧
      ∀ a, a < w.next → (GetAll env w).world.heap a = w.heap a) ∧
    (∀ id time, (Delete env id time w).world.emojiCache = w.emojiCache ∧
      (Delete env id time w).world.cacheLog = w.cacheLog ∧
      (Delete env id time w).world.next = w.next ∧
      (Delete env id time w).world.heap = w.heap) ∧
    (∀ id, (Get env id false w).world.emojiCache = w.emojiCache ∧
      (Get env id false w).world.cacheLog = w.cacheLog ∧
      w.next ≤ (Get env id false w).world.next ∧
      ∀ a, a < w.next → (Get env id false w).world.heap a = w.heap a) :=
  ⟨fun emoji => Save_frame env emoji w, fun name => GetByName_frame env name w,
    GetAll_frame env w, fun id time => Delete_frame env id time w,
    fun id => Get_nocache_frame env id w⟩

/-- A call that does not use the cache and is not a `Save` of the entity at
`p` leaves the cache and the allocated entity at `p` alone. -/
theorem Op.run_frame (env : Env DB C) (op : Op) (w : World DB C) (p : Ptr) (hp : p < w.next)
    (hcache : op.usesCache = false) (hsave : op ≠ .save p) :
    (op.run env w).world.emojiCache = w.emojiCache ∧
      (op.run env w).world.cacheLog = w.cacheLog ∧
      w.next ≤ (op.run env w).world.next ∧
      (op.run env w).world.heap p = w.heap p := by
  cases op with
  | save emoji =>
    have hne : p ≠ emoji := fun h => hsave (by rw [h])
    obtain ⟨h1, h2, h3, h4⟩ := Save_frame env emoji w
    exact ⟨h1, h2, Nat.le_of_eq h3.symm, h4 p hne⟩
  | get id allowFromCache =>
    have hc : allowFromCache = false := hcache
    subst hc
    obtain ⟨h1, h2, h3, h4⟩ := Get_nocache_frame env id w
    exact ⟨h1, h2, h3, h4 p hp⟩
  | getByName name =>
    obtain ⟨h1, h2, h3, h4⟩ := GetByName_frame env name w
    exact ⟨h1, h2, h3, h4 p hp⟩
  | getAll =>
    obtain ⟨h1, h2, h3, h4⟩ := GetAll_frame env w
    exact ⟨h1, h2, h3, h4 p hp⟩
  | delete id time =>
    obtain ⟨h1, h2, h3, h4⟩ := Delete_frame env id time w
    exact ⟨h1, h2, Nat.le_of_eq h3.symm, congrFun h4 p⟩

/-- A step that does not use the cache and is not a `Save` of the entity at
`p` leaves the cache and the allocated entity at `p` alone. -/
theorem Step.run_step_frame (env : Env DB C) (s : Step) (w w1 : World DB C) (p : Ptr)
    (hp : p < w.next) (hcache : s.usesCache = false) (hsave : s ≠ .call (.save p))
    (hrun : s.run env w = some w1) :
    w1.emojiCache = w.emojiCache ∧ w1.cacheLog = w.cacheLog ∧ w.next ≤ w1.next ∧
      w1.heap p = w.heap p := by
  cases s with
  | advance secs =>
    simp only [Step.run, Option.some.injEq] at hrun
    subst hrun
    exact ⟨rfl, rfl, Nat.le_refl _, rfl⟩
  | call op =>
    have hop : op ≠ .save p := fun h => hsave (by rw [h])
    have hframe := Op.run_frame env op w p hp hcache hop
    simp only [Step.run] at hrun
    split at hrun
    · simp only [Option.some.injEq] at hrun
      subst hrun
      exact hframe
    · exact absurd hrun (by simp)
    · exact absurd hrun (by simp)

/-- A schedule that runs to its end, does not use the cache and has no `Save`
of the entity at `p` leaves the cache and the allocated entity at `p` alone. -/
theorem runSteps_frame (env : Env DB C) (steps : List Step) (w w2 : World DB C) (p : Ptr)
    (hp : p < w.next)
    (hsteps : ∀ s ∈ steps, s.usesCache = false ∧ s ≠ .call (.save p))
    (hrun : runSteps env steps w = some w2) :
    w2.emojiCache = w.emojiCache ∧ w2.cacheLog = w.cacheLog ∧ w.next ≤ w2.next ∧
      w2.heap p = w.heap p := by
  induction steps generalizing w with
  | nil =>
    simp only [runSteps, Option.some.injEq] at hrun
    subst hrun
    exact ⟨rfl, rfl, Nat.le_refl _, rfl⟩
  | cons s rest ih =>
    have hs := hsteps s (List.mem_cons_self s rest)
    have hrest : ∀ x ∈ rest, x.usesCache = false ∧ x ≠ .call (.save p) :=
      fun x hx => hsteps x (List.mem_cons_of_mem s hx)
    simp only [runSteps] at hrun
    cases hstep : s.run env w with
    | none =>
      rw [hstep] at hrun
      exact absurd hrun (by simp)
    | some w1 =>
      rw [hstep] at hrun
      obtain ⟨h1, h2, h3, h4⟩ := Step.run_step_frame env s w w1 p hp hs.1 hs.2 hstep
      obtain ⟨k1, k2, k3, k4⟩ := ih w1 (Nat.lt_of_lt_of_le hp h3) hrest hrun
      exact ⟨k1.trans h1, k2.trans h2, Nat.le_trans h3 k3, k4.trans h4⟩

/-! ## Metrics -/

/-- C10.  Running `Get` with no metrics sink and running it with a sink `m`
give the same outcome, the same channel contents (data and error), the same
database state and calls, the same cache state and calls and the same
entities.  Without a sink
there is still none afterwards and the channel is resolved.  With a sink
exactly one event is recorded: a hit when the value came from the cache (no
call on a connection was made), a miss otherwise (one SELECT was made), which
includes every call without `allowFromCache`. -/
theorem Get_metrics_noninterference (env : Env DB C) (id : String) (allowFromCache : Bool)
    (w : World DB C) (m : Metrics) :
    (Get env id allowFromCache (w.withMetrics none)).status =
        (Get env id allowFromCache (w.withMetrics (some m))).status ∧
      (Get env id allowFromCache (w.withMetrics none)).storeChannel =
        (Get env id allowFromCache (w.withMetrics (some m))).storeChannel ∧
      (Get env id allowFromCache (w.withMetrics none)).world.db =
        (Get env id allowFromCache (w.withMetrics (some m))).world.db ∧
      (Get env id allowFromCache (w.withMetrics none)).world.dbLog =
        (Get env id allowFromCache (w.withMetrics (some m))).world.dbLog ∧
      (Get env id allowFromCache (w.withMetrics none)).world.emojiCache =
        (Get env id allowFromCache (w.withMetrics (some m))).world.emojiCache ∧
      (Get env id allowFromCache (w.withMetrics none)).world.cacheLog =
        (Get env id allowFromCache (w.withMetrics (some m))).world.cacheLog ∧
      (Get env id allowFromCache (w.withMetrics none)).world.heap =
        (Get env id allowFromCache (w.withMetrics (some m))).world.heap ∧
      (Get env id allowFromCache (w.withMetrics none)).world.next =
        (Get env id allowFromCache (w.withMetrics (some m))).world.next ∧
      (Get env id allowFromCache (w.withMetrics none)).world.metrics = none ∧
      (∃ result, ResolvedWith (Get env id allowFromCache (w.withMetrics none)) result) ∧
      (Get env id allowFromCache (w.withMetrics (some m))).world.metrics =
        some (if allowFromCache && (env.cache.Get w.emojiCache w.clock id).1.isSome then
          { hits := "Emoji" :: m.hits, misses := m.misses }
        else { hits := m.hits, misses := "Emoji" :: m.misses }) ∧
      (((Get env id allowFromCache (w.withMetrics (some m))).world.metrics =
            some { hits := "Emoji" :: m.hits, misses := m.misses } ∧
          (Get env id allowFromCache (w.withMetrics (some m))).world.dbLog = w.dbLog) ∨
        ((Get env id allowFromCache (w.withMetrics (some m))).world.metrics =
            some { hits := m.hits, misses := "Emoji" :: m.misses } ∧
          (Get env id allowFromCache (w.withMetrics (some m))).world.dbLog =
            w.dbLog ++ [.selectOne (.emojiById id)])) := by
  cases allowFromCache with
  | true =>
    cases hlookup : (env.cache.Get w.emojiCache w.clock id).1 with
    | some v =>
      simp only [Get, World.withMetrics, if_true]
      rw [hlookup]
      simp [sendAndClose_fresh, ResolvedWith, IncrementMemCacheHitCounter]
    | none =>
      simp only [Get, GetSelect, World.withMetrics, if_true]
      rw [hlookup]
      cases (env.GetReplica.SelectOne w.db (.emojiById id)).1 <;>
        simp [sendAndClose_fresh, ResolvedWith, IncrementMemCacheMissCounter, World.new]
  | false =>
    simp only [Get, GetSelect, World.withMetrics]
    cases (env.GetReplica.SelectOne w.db (.emojiById id)).1 <;>
      simp [sendAndClose_fresh, ResolvedWith, IncrementMemCacheMissCounter, World.new]

/-! ## Staleness of the cached value -/

/-- The modelled cache, with room for at least one entry, keeps a fresh entry
until it expires. -/
theorem lru_keepsFresh (c : LruCache) (hsize : 0 < c.size) : CacheKeepsFresh lruOps c := by
  intro t key v ttl t2 hlt
  have hnot : ¬ (t + ttl < t2) := by omega
  by_cases hany : (c.items.any (fun x => x.key == key)) = true
  · simp [lruOps, LruCache.Get, LruCache.AddWithExpiresInSecs, hany, hnot]
  · obtain ⟨n, hn⟩ : ∃ n, c.size = n + 1 := ⟨c.size - 1, by omega⟩
    simp [lruOps, LruCache.Get, LruCache.AddWithExpiresInSecs, hany, hnot, hn]

/-- Counterexample to C7 as stated: `Get "e1" true` reads and caches the row,
the caller gives the entity it received back to `Save` (which resolves, with
an error), and the next `Get "e1" true`, a hit within the time-to-live, hands
out the same entity with `CreateAt` and `UpdateAt` rewritten: not the value
first returned. -/
theorem Get_after_Save_of_cached_entity :
    ResolvedWith (Get tableEnv "e1" true (tableWorld [smile] (some noEvents)))
        { Data := .emoji 0, Err := none } ∧
      (Get tableEnv "e1" true (tableWorld [smile] (some noEvents))).world.heap 0 = smile ∧
      (Save tableEnv 0 warmWorld).status = .done ∧
      (runSteps tableEnv [.call (.save 0)] warmWorld).isSome = true ∧
      ResolvedWith (Get tableEnv "e1" true (Save tableEnv 0 warmWorld).world)
        { Data := .emoji 0, Err := none } ∧
      (Get tableEnv "e1" true (Save tableEnv 0 warmWorld).world).world.dbLog =
        (Save tableEnv 0 warmWorld).world.dbLog ∧
      (Get tableEnv "e1" true (Save tableEnv 0 warmWorld).world).world.heap 0 =
        { smile with CreateAt := 1000000, UpdateAt := 1000000 } ∧
      (Get tableEnv "e1" true (Save tableEnv 0 warmWorld).world).world.heap 0 ≠ smile := by
  decide

/-- C7 (amended).  Assume the cache keeps a fresh entry until it expires.  If
`Get id true` misses the cache and reads `e` from storage (into a new entity,
at `w0.next`), then after any schedule of clock advances and calls of `Save`
(of entities other than that one), `GetByName`, `GetAll`, `Delete` (of any id,
`id` included) and `Get` without `allowFromCache` in which every call resolves
its channel and which ends within the time-to-live, a further `Get id true`
resolves with the same entity, still holding `e`, and makes no call on a
connection; the first of the two calls counts one miss and no hit, the second
one hit and no miss. -/
theorem Get_cached_value_stable (env : Env DB C) (w0 w2 : World DB C) (id : String) (e : Emoji)
    (steps : List Step)
    (hfresh : CacheKeepsFresh env.cache (env.cache.Get w0.emojiCache w0.clock id).2)
    (hmiss : (env.cache.Get w0.emojiCache w0.clock id).1 = none)
    (hsel : (env.GetReplica.SelectOne w0.db (.emojiById id)).1 = .ok e)
    (hsteps : ∀ s ∈ steps, s.usesCache = false ∧ s ≠ .call (.save w0.next))
    (hrun : runSteps env steps (Get env id true w0).world = some w2)
    (hwindow : w2.clock < w0.clock + EMOJI_CACHE_SEC) :
    ResolvedWith (Get env id true w0) { Data := .emoji w0.next, Err := none } ∧
      (Get env id true w0).world.heap w0.next = e ∧
      (Get env id true w0).world.metrics =
        w0.metrics.map (IncrementMemCacheMissCounter "Emoji") ∧
      ResolvedWith (Get env id true w2) { Data := .emoji w0.next, Err := none } ∧
      (Get env id true w2).world.heap w0.next = e ∧
      (Get env id true w2).world.db = w2.db ∧
      (Get env id true w2).world.dbLog = w2.dbLog ∧
      (Get env id true w2).world.metrics =
        w2.metrics.map (IncrementMemCacheHitCounter "Emoji") := by
  have hrun1 := GetSelect_found_run env id true
    ({ w0 with
        emojiCache := (env.cache.Get w0.emojiCache w0.clock id).2
        cacheLog := w0.cacheLog ++ [.get id]
        metrics := w0.metrics.map (IncrementMemCacheMissCounter "Emoji") } : World DB C) e hsel
  have hget1 := (Get_miss_run env id w0 hmiss).trans hrun1
  have hcache1 : (Get env id true w0).world.emojiCache =
      env.cache.AddWithExpiresInSecs (env.cache.Get w0.emojiCache w0.clock id).2 w0.clock id
        w0.next EMOJI_CACHE_SEC := by
    rw [hget1]
    rfl
  have hheap1 : (Get env id true w0).world.heap w0.next = e := by
    rw [hget1]
    simp
  have hnext1 : w0.next < (Get env id true w0).world.next := by
    rw [hget1]
    exact Nat.lt_succ_self _
  obtain ⟨hframe, _, _, hheap⟩ :=
    runSteps_frame env steps (Get env id true w0).world w2 w0.next hnext1 hsteps hrun
  have hfound : (env.cache.Get w2.emojiCache w2.clock id).1 = some w0.next := by
    rw [hframe, hcache1]
    exact hfresh w0.clock id w0.next EMOJI_CACHE_SEC _ hwindow
  have hrun2 := Get_hit_run env id w2 w0.next hfound
  refine ⟨?_, hheap1, ?_, ?_, ?_, ?_, ?_, ?_⟩
  · rw [hget1]
    simp [ResolvedWith]
  · rw [hget1]
  · rw [hrun2]
    simp [ResolvedWith]
  · rw [hrun2]
    exact hheap.trans hheap1
  · rw [hrun2]
  · rw [hrun2]
  · rw [hrun2]

/-- Witness for C7 (amended): after `staleSchedule` the row is deleted in the
table, and `Get "e1" true` still resolves with the entity cached before, which
still holds the live row. -/
theorem Get_cached_value_stable_witness :
    runSteps tableEnv staleSchedule
        (Get tableEnv "e1" true (tableWorld [smile, wink] (some noEvents))).world =
        some staleWorld ∧
      staleWorld.clock = 1600 ∧
      staleWorld.db = [{ smile with DeleteAt := 1500, UpdateAt := 1500 }, wink] ∧
      ResolvedWith (Get tableEnv "e1" true staleWorld) { Data := .emoji 0, Err := none } ∧
      (Get tableEnv "e1" true staleWorld).world.heap 0 = smile :=
  ⟨rfl, by decide, by decide,
    (Get_cached_value_stable tableEnv (tableWorld [smile, wink] (some noEvents)) staleWorld
      "e1" smile staleSchedule (lru_keepsFresh _ (by decide)) (by decide) rfl (by decide) rfl
      (by decide)).2.2.2.1,
    (Get_cached_value_stable tableEnv (tableWorld [smile, wink] (some noEvents)) staleWorld
      "e1" smile staleSchedule (lru_keepsFresh _ (by decide)) (by decide) rfl (by decide) rfl
      (by decide)).2.2.2.2.1⟩

/-! ## Single resolution -/

/-- Every call resolves its channel exactly once, except a `Delete` whose
UPDATE succeeds with zero rows affected, which panics. -/
theorem Op.run_resolved_or_zero_rows (env : Env DB C) (op : Op) (w : World DB C) :
    (∃ result, ResolvedWith (op.run env w) result) ∨
      (∃ id time, op = .delete id time ∧
        (env.GetMaster.Exec w.db { DeleteAt := time, UpdateAt := time, Id := id }).1.2 = none ∧
        (env.GetMaster.Exec w.db
          { DeleteAt := time, UpdateAt := time, Id := id }).1.1.RowsAffected.1 = 0 ∧
        ∃ msg, (op.run env w).status = .panicked msg) := by
  cases op with
  | save emoji =>
    left
    simp only [Op.run, Save]
    split
    · exact ⟨_, sendAndClose_resolved _ _⟩
    · split <;> exact ⟨_, sendAndClose_resolved _ _⟩
  | get id allowFromCache =>
    left
    cases allowFromCache with
    | true =>
      simp only [Op.run, Get, GetSelect, if_true]
      cases (env.cache.Get w.emojiCache w.clock id).1 with
      | some v => exact ⟨_, sendAndClose_resolved _ _⟩
      | none =>
        cases (env.GetReplica.SelectOne w.db (.emojiById id)).1 <;>
          exact ⟨_, sendAndClose_resolved _ _⟩
    | false =>
      simp only [Op.run, Get, GetSelect]
      cases (env.GetReplica.SelectOne w.db (.emojiById id)).1 <;>
        exact ⟨_, sendAndClose_resolved _ _⟩
  | getByName name =>
    left
    simp only [Op.run, GetByName]
    cases (env.GetReplica.SelectOne w.db (.emojiByName name)).1 <;>
      exact ⟨_, sendAndClose_resolved _ _⟩
  | getAll =>
    left
    simp only [Op.run, GetAll]
    cases (env.GetReplica.Select w.db .allLive).1 <;> exact ⟨_, sendAndClose_resolved _ _⟩
  | delete id time =>
    cases herr : (env.GetMaster.Exec w.db { DeleteAt := time, UpdateAt := time, Id := id }).1.2 with
    | some msg =>
      left
      simp only [Op.run, Delete]
      rw [herr]
      exact ⟨_, sendAndClose_resolved _ _⟩
    | none =>
      by_cases hrows : (env.GetMaster.Exec w.db
          { DeleteAt := time, UpdateAt := time, Id := id }).1.1.RowsAffected.1 = 0
      · right
        refine ⟨id, time, rfl, herr, hrows, ?_⟩
        simp only [Op.run, Delete]
        rw [herr]
        simp [hrows, GoError.Error]
      · left
        simp only [Op.run, Delete]
        rw [herr]
        simp only [Option.isSome_none, Bool.false_eq_true, if_false, hrows]
        exact ⟨_, sendAndClose_resolved _ _⟩

/-- A call has no world to go on from only when it is a `Delete` whose UPDATE
succeeds with zero rows affected. -/
theorem Step.run_stops (env : Env DB C) (op : Op) (w : World DB C)
    (hnone : Step.run env (.call op) w = none) :
    ∃ id time, op = .delete id time ∧
      (env.GetMaster.Exec w.db { DeleteAt := time, UpdateAt := time, Id := id }).1.2 = none ∧
      (env.GetMaster.Exec w.db
        { DeleteAt := time, UpdateAt := time, Id := id }).1.1.RowsAffected.1 = 0 := by
  rcases Op.run_resolved_or_zero_rows env op w with ⟨result, hres⟩ | ⟨id, time, h1, h2, h3, _⟩
  · simp [Step.run, hres.1] at hnone
  · exact ⟨id, time, h1, h2, h3⟩

/-- C4 (code defect).  `Delete` of an id that no live row has: the UPDATE
succeeds with zero rows affected, the goroutine panics on `err.Error()` with
`err` nil, and it ends having written nothing to the channel and without
closing it. -/
theorem Delete_missing_id_never_resolves :
    (Delete tableEnv "ghost" 1500 (tableWorld [smile] none)).status =
        .panicked "runtime error: invalid memory address or nil pointer dereference" ∧
      (Delete tableEnv "ghost" 1500 (tableWorld [smile] none)).storeChannel =
        { capacity := 1, buffer := [], closed := false } ∧
      (Delete tableEnv "ghost" 1500 (tableWorld [smile] none)).world.db = [smile] ∧
      (Delete tableEnv "ghost" 1500 (tableWorld [smile] none)).world.dbLog =
        [.exec { DeleteAt := 1500, UpdateAt := 1500, Id := "ghost" }] := by
  decide

/-! ## Soft delete on the table model -/

/-- After the UPDATE with a non-zero `DeleteAt`, no row with the updated id is
live. -/
theorem Update.apply_none_live (u : Update) (hu : u.DeleteAt ≠ 0) (table : List Emoji) :
    (u.apply table).filter (Query.selects (.emojiById u.Id)) = [] := by
  rw [List.filter_eq_nil_iff]
  intro x hx
  simp only [Update.apply, List.mem_map] at hx
  obtain ⟨y, _, rfl⟩ := hx
  by_cases hy : u.selects y = true
  · simp [hy, Update.set, Query.selects, hu]
  · simp only [hy, Bool.false_eq_true, if_false]
    simpa [Update.selects, Query.selects] using hy

/-- The UPDATE of a live row keeps `(Name, DeleteAt)` unique when no row
already has the name of that row with the new `DeleteAt`. -/
theorem Update.apply_uniqueTogether (table : List Emoji) (X : String) (t : Int) (row : Emoji)
    (hkey : PrimaryKey table) (hunique : UniqueTogether table) (hrow : row ∈ table)
    (hid : row.Id = X) (hfree : ∀ y ∈ table, y.Name = row.Name → y.DeleteAt ≠ t) :
    UniqueTogether (Update.apply { DeleteAt := t, UpdateAt := t, Id := X } table) := by
  have hsame : ∀ x ∈ table, x.Id = X → x = row := fun x hx hxid =>
    List.inj_on_of_nodup_map hkey hx hrow (hxid.trans hid.symm)
  have hsel : ∀ x ∈ table,
      Update.selects { DeleteAt := t, UpdateAt := t, Id := X } x = true → x = row := by
    intro x hx hs
    simp only [Update.selects, Bool.and_eq_true, beq_iff_eq] at hs
    exact hsame x hx hs.1
  unfold UniqueTogether Update.apply
  rw [List.map_map]
  refine List.Nodup.map_on ?_ (List.Nodup.of_map _ hkey)
  intro x hx y hy hxy
  by_cases hsx : Update.selects { DeleteAt := t, UpdateAt := t, Id := X } x = true
  · by_cases hsy : Update.selects { DeleteAt := t, UpdateAt := t, Id := X } y = true
    · exact (hsel x hx hsx).trans (hsel y hy hsy).symm
    · have hxr := hsel x hx hsx
      simp only [Function.comp, hsx, hsy, if_true, Bool.false_eq_true, if_false, Update.set,
        Prod.mk.injEq] at hxy
      exact absurd hxy.2.symm (hfree y hy (by rw [← hxy.1, hxr]))
  · by_cases hsy : Update.selects { DeleteAt := t, UpdateAt := t, Id := X } y = true
    · have hyr := hsel y hy hsy
      simp only [Function.comp, hsx, hsy, if_true, Bool.false_eq_true, if_false, Update.set,
        Prod.mk.injEq] at hxy
      exact absurd hxy.2 (hfree x hx (by rw [hxy.1, hyr]))
    · simp only [Function.comp, hsx, hsy, Bool.false_eq_true, if_false] at hxy
      exact List.inj_on_of_nodup_map hunique hx hy hxy

/-- The run of `Delete` on the table model when a live row has the id and the
UPDATE keeps `(Name, DeleteAt)` unique. -/
theorem Delete_table_run (env : Env (List Emoji) C) (hmaster : env.GetMaster = tableExecutor)
    (w : World (List Emoji) C) (X : String) (t : Int) (row : Emoji) (hrow : row ∈ w.db)
    (hid : row.Id = X) (hlive : row.DeleteAt = 0)
    (hunique : UniqueTogether (Update.apply { DeleteAt := t, UpdateAt := t, Id := X } w.db)) :
    Delete env X t w =
      { status := .done,
        storeChannel := { capacity := 1, buffer := [{ Data := .nil, Err := none }], closed := true },
        world :=
          { w with
            db := Update.apply { DeleteAt := t, UpdateAt := t, Id := X } w.db
            dbLog := w.dbLog ++ [.exec { DeleteAt := t, UpdateAt := t, Id := X }] } } := by
  have hmem : row ∈ w.db.filter (Update.selects { DeleteAt := t, UpdateAt := t, Id := X }) := by
    simp [List.mem_filter, hrow, Update.selects, hid, hlive]
  have hlen : ((w.db.filter (Update.selects { DeleteAt := t, UpdateAt := t, Id := X })).length : Int)
      ≠ 0 := by
    have := List.length_pos_of_mem hmem
    omega
  simp only [Delete, hmaster, tableExecutor, hunique, if_true, Option.isSome_none,
    Bool.false_eq_true, if_false, hlen]
  rfl

/-- Counterexample to C5 as stated, at two inputs.  With timestamp 0, `Delete`
succeeds on a live row, writes `DeleteAt = 0`, and the following `Get` without
cache finds the row, with no error.  With the timestamp at which an earlier
holder of the same name was deleted, the UPDATE breaks the uniqueness of
`(Name, DeleteAt)`: `Delete` of the live row resolves with the adapter error
and the row is left live. -/
theorem Delete_not_always_soft :
    (ResolvedWith (Delete tableEnv "e1" 0 (tableWorld [smile] none))
        { Data := .nil, Err := none } ∧
      (Delete tableEnv "e1" 0 (tableWorld [smile] none)).world.db =
        [{ smile with DeleteAt := 0, UpdateAt := 0 }] ∧
      ResolvedWith (Get tableEnv "e1" false (Delete tableEnv "e1" 0 (tableWorld [smile] none)).world)
        { Data := .emoji 0, Err := none } ∧
      (Get tableEnv "e1" false (Delete tableEnv "e1" 0 (tableWorld [smile] none)).world).world.heap
        0 = { smile with DeleteAt := 0, UpdateAt := 0 }) ∧
    (PrimaryKey [{ smile with DeleteAt := 1500 }, { smile with Id := "e2" }] ∧
      UniqueTogether [{ smile with DeleteAt := 1500 }, { smile with Id := "e2" }] ∧
      ResolvedWith
        (Delete tableEnv "e2" 1500
          (tableWorld [{ smile with DeleteAt := 1500 }, { smile with Id := "e2" }] none))
        { Data := .nil,
          Err := some (NewLocAppError "SqlEmojiStore.Delete" "store.sql_emoji.delete.app_error"
            none "id=e2, err=duplicate key value violates unique constraint") } ∧
      (Delete tableEnv "e2" 1500
        (tableWorld [{ smile with DeleteAt := 1500 }, { smile with Id := "e2" }] none)).world.db =
        [{ smile with DeleteAt := 1500 }, { smile with Id := "e2" }]) := by
  decide

/-- C5 (amended).  On the table model, for a table that satisfies its two
constraints (unique ids, unique `(Name, DeleteAt)`) and holds a live row `row`
with id `X`, and for every timestamp `t` other than 0 that no row with the
name of `row` already has as its `DeleteAt`, `Delete X t` resolves without
error; afterwards the table has the same length, every row with another id is
unchanged at its position, every row with id `X` is at its position with
`DeleteAt = t` and `UpdateAt = t` and its other columns unchanged; and a
following `Get X false` resolves with the error of `Get` whose detail is the
no-rows error of the SELECT. -/
theorem Delete_soft_delete (env : Env (List Emoji) C) (w : World (List Emoji) C) (X : String)
    (t : Int) (row : Emoji)
    (hmaster : env.GetMaster = tableExecutor) (hreplica : env.GetReplica = tableExecutor)
    (hkey : PrimaryKey w.db) (hunique : UniqueTogether w.db)
    (hrow : row ∈ w.db) (hid : row.Id = X) (hlive : row.DeleteAt = 0)
    (ht : t ≠ 0) (hfree : ∀ y ∈ w.db, y.Name = row.Name → y.DeleteAt ≠ t) :
    ResolvedWith (Delete env X t w) { Data := .nil, Err := none } ∧
      (Delete env X t w).world.db.length = w.db.length ∧
      (∀ (i : Nat) (x : Emoji), w.db[i]? = some x → x.Id ≠ X →
        (Delete env X t w).world.db[i]? = some x) ∧
      (∀ (i : Nat) (x : Emoji), w.db[i]? = some x → x.Id = X →
        (Delete env X t w).world.db[i]? = some { x with DeleteAt := t, UpdateAt := t }) ∧
      (∀ x ∈ (Delete env X t w).world.db, x.Id = X → x.DeleteAt = t ∧ x.UpdateAt = t) ∧
      ResolvedWith (Get env X false (Delete env X t w).world)
        { Data := .nil,
          Err := some (NewLocAppError "SqlEmojiStore.Get" "store.sql_emoji.get.app_error" none
            ("id=" ++ X ++ ", " ++ "sql: no rows in result set")) } := by
  have hrun := Delete_table_run env hmaster w X t row hrow hid hlive
    (Update.apply_uniqueTogether w.db X t row hkey hunique hrow hid hfree)
  have hdb : (Delete env X t w).world.db =
      Update.apply { DeleteAt := t, UpdateAt := t, Id := X } w.db := by
    rw [hrun]
  have hsame : ∀ x ∈ w.db, x.Id = X → x = row := by
    intro x hx hxid
    exact List.inj_on_of_nodup_map hkey hx hrow (hxid.trans hid.symm)
  refine ⟨?_, ?_, ?_, ?_, ?_, ?_⟩
  · rw [hrun]
    simp [ResolvedWith]
  · rw [hdb]
    simp [Update.apply]
  · intro i x hx hne
    rw [hdb]
    simp [Update.apply, List.getElem?_map, hx, Update.selects, hne]
  · intro i x hx hxid
    have hxrow : x = row := hsame x (List.getElem?_mem hx) hxid
    rw [hdb]
    simp [Update.apply, List.getElem?_map, hx, Update.selects, Update.set, hxrow, hid, hlive]
  · intro x hx hxid
    rw [hdb] at hx
    simp only [Update.apply, List.mem_map] at hx
    obtain ⟨y, hy, rfl⟩ := hx
    by_cases hsel : Update.selects { DeleteAt := t, UpdateAt := t, Id := X } y = true
    · simp [hsel, Update.set]
    · simp only [hsel, Bool.false_eq_true, if_false] at hxid ⊢
      have hyrow : y = row := hsame y hy hxid
      exact absurd (by simp [Update.selects, hyrow, hid, hlive]) hsel
  · have hnone := Update.apply_none_live { DeleteAt := t, UpdateAt := t, Id := X } ht w.db
    have hselect : (env.GetReplica.SelectOne (Delete env X t w).world.db (.emojiById X)).1 =
        .error "sql: no rows in result set" := by
      rw [hreplica, hdb]
      simp only [tableExecutor]
      rw [hnone]
    rw [Get_nocache_run]
    have hfail := GetSelect_failed_run env X false
      ({ (Delete env X t w).world with
          metrics := (Delete env X t w).world.metrics.map (IncrementMemCacheMissCounter "Emoji") } :
        World (List Emoji) C) "sql: no rows in result set" hselect
    rw [hfail]
    simp [ResolvedWith]

/-- Witness for C5 (amended): a two-row table, the first row soft-deleted. -/
theorem Delete_soft_delete_witness :
    (Delete tableEnv "e1" 1500 (tableWorld [smile, wink] none)).world.db =
      [{ smile with DeleteAt := 1500, UpdateAt := 1500 }, wink] ∧
    ResolvedWith
      (Get tableEnv "e1" false (Delete tableEnv "e1" 1500 (tableWorld [smile, wink] none)).world)
      { Data := .nil,
        Err := some (NewLocAppError "SqlEmojiStore.Get" "store.sql_emoji.get.app_error" none
          ("id=" ++ "e1" ++ ", " ++ "sql: no rows in result set")) } :=
  ⟨by decide,
    (Delete_soft_delete tableEnv (tableWorld [smile, wink] none) "e1" 1500 smile
      rfl rfl (by decide) (by decide) (by decide) rfl rfl (by decide) (by decide)).2.2.2.2.2⟩

/-! ## The error of Get -/

/-- Counterexample to C9 as stated: a `Get` whose SELECT finds no live row and
a `Get` whose SELECT fails at the adapter resolve with errors of the same kind
(the same `Id` and `Where`); they differ in the detail text only. -/
theorem Get_not_found_same_kind_as_storage_error :
    ∃ e1 e2 : AppError,
      (Get tableEnv "ghost" false (tableWorld [smile] none)).storeChannel.buffer =
          [{ Data := .nil, Err := some e1 }] ∧
        (Get brokenEnv "ghost" false (tableWorld [smile] none)).storeChannel.buffer =
          [{ Data := .nil, Err := some e2 }] ∧
        e1.Id = "store.sql_emoji.get.app_error" ∧
        e2.Id = "store.sql_emoji.get.app_error" ∧
        e1.Where = e2.Where ∧
        e1.DetailedError = "id=ghost, sql: no rows in result set" ∧
        e2.DetailedError = "id=ghost, dial tcp: connection refused" :=
  ⟨NewLocAppError "SqlEmojiStore.Get" "store.sql_emoji.get.app_error" none
      "id=ghost, sql: no rows in result set",
    NewLocAppError "SqlEmojiStore.Get" "store.sql_emoji.get.app_error" none
      "id=ghost, dial tcp: connection refused",
    by decide⟩

/-- C9 (amended).  On the storage path of `Get`, whatever error the SELECT
returns (no row or any other adapter error, with text `msg`), the channel is
resolved with no data and the one error of `Get`: `Where` is
`SqlEmojiStore.Get`, `Id` is `store.sql_emoji.get.app_error`, and the detail
text is the id followed by `msg`.  The cause shows in the detail text only. -/
theorem Get_select_error (env : Env DB C) (id : String) (allowFromCache : Bool)
    (w : World DB C) (msg : GoError)
    (hpath : allowFromCache = true → (env.cache.Get w.emojiCache w.clock id).1 = none)
    (hsel : (env.GetReplica.SelectOne w.db (.emojiById id)).1 = .error msg) :
    ResolvedWith (Get env id allowFromCache w)
      { Data := .nil,
        Err := some
          { Where := "SqlEmojiStore.Get", Id := "store.sql_emoji.get.app_error", params := none,
            DetailedError := "id=" ++ id ++ ", " ++ msg } } := by
  cases allowFromCache with
  | true =>
    have hrun := GetSelect_failed_run env id true
      ({ w with
          emojiCache := (env.cache.Get w.emojiCache w.clock id).2
          cacheLog := w.cacheLog ++ [.get id]
          metrics := w.metrics.map (IncrementMemCacheMissCounter "Emoji") } : World DB C) msg hsel
    rw [Get_miss_run env id w (hpath rfl), hrun]
    simp [ResolvedWith, NewLocAppError]
  | false =>
    have hrun := GetSelect_failed_run env id false
      ({ w with metrics := w.metrics.map (IncrementMemCacheMissCounter "Emoji") } : World DB C)
      msg hsel
    rw [Get_nocache_run, hrun]
    simp [ResolvedWith, NewLocAppError]

/-- Witness for C9 (amended): the no-row error of the table model. -/
theorem Get_select_error_witness :
    (tableEnv.GetReplica.SelectOne (tableWorld [smile] none).db (.emojiById "ghost")).1 =
        .error "sql: no rows in result set" ∧
      ResolvedWith (Get tableEnv "ghost" true (tableWorld [smile] none))
        { Data := .nil,
          Err := some
            { Where := "SqlEmojiStore.Get", Id := "store.sql_emoji.get.app_error", params := none,
              DetailedError := "id=" ++ "ghost" ++ ", " ++ "sql: no rows in result set" } } :=
  ⟨rfl,
    Get_select_error tableEnv "ghost" true (tableWorld [smile] none) "sql: no rows in result set"
      (fun _ => by decide) rfl⟩

end SqlEmojiStore
